import Mathlib

/-!
Verification of the grid-layout and cell-addressing engine of the
sudoku booklet generator (src/sudoku.js, src/sudoku.gs and the unnamed
revision).  The spreadsheet and document products are external
collaborators; the embedding models the read interface of the active
row of the Sudokus sheet as a function from a column index (a JS
number) to cell data, and the cross-sheet lookup as a partial function
from range strings to scalar values.  All pure logic (grid-size
inference, formula parsing, validation, slice extraction, puzzle
construction, the blob cache) is translated directly from
src/sudoku.js, the latest revision, which the claims cite.
-/

/-- A scalar value held by a spreadsheet cell, as seen through
`getValue()`.  `cellImage` models an in-cell image object, whose JS
string conversion is the tag "CellImage" and which carries a content
URL. -/
inductive JSVal where
  | str (s : String)
  | num (q : ℚ)
  | boolean (b : Bool)
  | empty
  | cellImage (contentUrl : String)
deriving DecidableEq

/-- JS string conversion of a cell value.  Only the comparison with the
tag "CellImage" is ever used; the rendering of numbers differs from JS
in fringe cases but no numeric rendering equals that tag. -/
def jsString : JSVal → String
  | .str s => s
  | .num q => toString q
  | .boolean b => if b then "true" else "false"
  | .empty => ""
  | .cellImage _ => "CellImage"

/-- JS truthiness of a cell value. -/
def truthy : JSVal → Bool
  | .str s => s ≠ ""
  | .num q => q ≠ 0
  | .boolean b => b
  | .empty => false
  | .cellImage _ => true

/-- A cell as read from the sheet: its displayed value and its formula
string (empty when the cell holds no formula). -/
structure CellData where
  value : JSVal
  formula : String
deriving DecidableEq

/-- The read interface for one row of the Sudokus sheet plus the
cross-sheet lookup `spreadsheet.getRange(ref).getValue()`; a `none`
result of `refLookup` models a range lookup that raises. -/
structure Sheet where
  cellAt : ℚ → CellData
  refLookup : String → Option JSVal

/-- Errors raised by the engine, one constructor per distinct `throw
new Error` site relevant to the claims. -/
inductive Err where
  | invalidGridSize (count : Nat)
  | badSheetRef
  | outOfRange
  | missingFormula
  | malformedFormula
  | emptyRef (content : String)
  | refFailed (content : String) (inner : Err)
  | typeError
  | dimsError
  | rowDimsError
  | rangeError
deriving DecidableEq

deriving instance DecidableEq for Except

/-- Result of `getAnswersSheetInfo`: the answers sheet name and the
start cell, split out of a "SheetName!CellReference" string. -/
structure SheetInfo where
  sheetName : String
  startCell : String
deriving DecidableEq

/-- Split a character list at every occurrence of a separator, the
semantics of the JS split method with a one-character separator. -/
def splitChar (sep : Char) : List Char → List (List Char)
  | [] => [[]]
  | c :: cs =>
    let r := splitChar sep cs
    if c = sep then [] :: r
    else (c :: r.headD []) :: r.tail

/-- getAnswersSheetInfo (src/sudoku.js lines 210-230): reads column 3
of the row, requires a string of the form "SheetName!CellReference"
with both parts nonempty. -/
def getAnswersSheetInfo (sh : Sheet) : Except Err SheetInfo :=
  match (sh.cellAt 3).value with
  | .str s =>
      if s = "" then .error .badSheetRef
      else
        let parts := splitChar '!' s.data
        let sheetName := String.mk (parts.headD [])
        let startCell := String.mk (parts.getD 1 [])
        if sheetName = "" ∨ startCell = "" then .error .badSheetRef
        else .ok ⟨sheetName, startCell⟩
  | _ => .error .badSheetRef

/-- The seven characters of the literal image-formula marker
"=image(", against which formulas are compared after lowercasing. -/
def imagePattern : List Char := ['=', 'i', 'm', 'a', 'g', 'e', '(']

/-- The image-reference predicate of getGridSize (src/sudoku.js line
133): the value converts to "CellImage" or the formula starts with
"=image(" case-insensitively. -/
def isImageRef (c : CellData) : Bool :=
  jsString c.value == "CellImage" ||
    (c.formula.data.take 7).map Char.toLower == imagePattern

/-- Number of image references in the fixed scan window, columns 5 to
10 of the row (src/sudoku.js lines 127-136). -/
def windowCount (sh : Sheet) : Nat :=
  ([5, 6, 7, 8, 9, 10] : List ℚ).countP (fun i => isImageRef (sh.cellAt i))

/-- getGridSize (src/sudoku.js lines 122-149): 4 when the window holds
exactly 4 image references, 6 when exactly 6, error otherwise. -/
def getGridSize (sh : Sheet) : Except Err Nat :=
  let count := windowCount sh
  if count = 4 then .ok 4
  else if count = 6 then .ok 6
  else .error (.invalidGridSize count)

/-- One attempt of the regex =image\(([^)]+)\) at the head of the
character list: a case-insensitive "=image(" prefix followed by at
least one character other than the closing parenthesis and then that
parenthesis; yields the argument characters. -/
def tryImageAt (cs : List Char) : Option (List Char) :=
  if (cs.take 7).map Char.toLower = imagePattern then
    let rest := cs.drop 7
    let content := rest.takeWhile (fun c => c ≠ ')')
    if content.length ≠ 0 ∧ content.length < rest.length then some content
    else none
  else none

/-- First match of the regex =image\(([^)]+)\) over the whole string,
scanning left to right as the JS regex engine does. -/
def findImageArg : List Char → Option (List Char)
  | [] => none
  | c :: cs =>
    match tryImageAt (c :: cs) with
    | some content => some content
    | none => findImageArg cs

/-- The quoted-literal test of getImageFromCell: content starts and
ends with a double quote (src/sudoku.js line 274). -/
def isQuoted (cs : List Char) : Bool :=
  cs.head? == some '"' && cs.getLast? == some '"'

/-- The JS trim method: leading and trailing whitespace removed. -/
def jsTrim (s : String) : String :=
  String.mk (((s.data.dropWhile Char.isWhitespace).reverse.dropWhile
    Char.isWhitespace).reverse)

/-- getImageFromCell (src/sudoku.js lines 240-302).  The grid size is
inferred from the answers sheet name; the addressed cell sits at
column num + 4.  An empty formula returns the content URL of the in-cell
image value; otherwise the formula must match the image pattern, and its
argument is a quoted literal, a cross-sheet reference (containing the
separator), or a bare literal.  Errors inside the reference branch are
wrapped, mirroring the try/catch. -/
def getImageFromCell (sh : Sheet) (num : ℚ) : Except Err String :=
  match getAnswersSheetInfo sh with
  | .error e => .error e
  | .ok info =>
    let gridSize : ℚ := if info.sheetName.data.contains '6' then 6 else 4
    if num < 1 ∨ num > gridSize then .error .outOfRange
    else
      let c := sh.cellAt (num + 4)
      if c.formula = "" then
        match c.value with
        | .cellImage u => .ok u
        | _ => .error .typeError
      else if ((c.formula.data.take 7).map Char.toLower ≠ imagePattern) then
        .error .missingFormula
      else
        match findImageArg c.formula.data with
        | none => .error .malformedFormula
        | some contentChars =>
          if isQuoted contentChars then
            .ok (String.mk ((contentChars.drop 1).dropLast))
          else if contentChars.contains '!' then
            let content := String.mk contentChars
            match sh.refLookup content with
            | some (.str s) =>
              if jsTrim s = "" then .error (.refFailed content (.emptyRef content))
              else .ok s
            | some _ => .error (.refFailed content (.emptyRef content))
            | none => .error (.refFailed content .typeError)
          else
            .ok (String.mk contentChars)

/-- A raw puzzle grid: each cell holds null or a JS number. -/
abbrev Grid := List (List (Option ℚ))

/-- The cell check of validateSudokuArray (src/sudoku.js line 355):
null, or a value between 1 and the grid size; integrality is not
tested. -/
def validCell (n : Nat) : Option ℚ → Bool
  | none => true
  | some q => decide (1 ≤ q) && decide (q ≤ (n : ℚ))

/-- The shape and range checks of validateSudokuArray (src/sudoku.js
lines 347-358), parameterized by the resolved grid size. -/
def validateArray (n : Nat) (arr : Grid) : Except Err Unit :=
  if arr.length ≠ n then .error .dimsError
  else if ¬ (arr.all (fun r => r.length = n)) then .error .rowDimsError
  else if ¬ (arr.all (fun r => r.all (validCell n))) then .error .rangeError
  else .ok ()

/-- validateSudokuArray as called in src/sudoku.js: the grid size is
resolved first via getGridSize, then the array checks run. -/
def validateSudokuArray (sh : Sheet) (arr : Grid) : Except Err Unit :=
  match getGridSize sh with
  | .error e => .error e
  | .ok n => validateArray n arr

/-- The spec-side cell predicate for the amended validator claim: null
or a number between 1 and the grid size. -/
def cellInRange (n : Nat) : Option ℚ → Prop
  | none => True
  | some q => 1 ≤ q ∧ q ≤ (n : ℚ)

instance (n : Nat) (c : Option ℚ) : Decidable (cellInRange n c) := by
  cases c <;> simp [cellInRange] <;> infer_instance

/-- One entry of a slice: resolved locator plus the original grid
value. -/
structure Entry where
  url : String
  value : ℚ
deriving DecidableEq

/-- The per-cell step of the row and column section builders
(src/sudoku.js lines 523-527): null cells yield nothing, other cells
resolve their value and are kept only when the locator is truthy. -/
def rowEntry (sh : Sheet) : Option ℚ → Except Err (Option Entry)
  | none => .ok none
  | some v =>
    match getImageFromCell sh v with
    | .error e => .error e
    | .ok url => .ok (if url ≠ "" then some ⟨url, v⟩ else none)

/-- Map rowEntry over a list of cells and drop the misses, with the
first raised error aborting the walk, as the JS map plus filter does. -/
def mapRowE (sh : Sheet) : List (Option ℚ) → Except Err (List Entry)
  | [] => .ok []
  | v :: rest =>
    match rowEntry sh v with
    | .error e => .error e
    | .ok e =>
      match mapRowE sh rest with
      | .error e2 => .error e2
      | .ok es =>
        .ok (match e with
             | some x => x :: es
             | none => es)

/-- Monadic map over a list in the Except monad, left to right. -/
def mapME (f : α → Except Err β) : List α → Except Err (List β)
  | [] => .ok []
  | a :: as =>
    match f a with
    | .error e => .error e
    | .ok b =>
      match mapME f as with
      | .error e => .error e
      | .ok bs => .ok (b :: bs)

/-- The sections built by outputRows (src/sudoku.js lines 517-531):
after validation and the answers-sheet lookup, one section per grid
row in row order. -/
def outputRowsSections (sh : Sheet) (arr : Grid) : Except Err (List (List Entry)) :=
  match validateSudokuArray sh arr with
  | .error e => .error e
  | .ok _ =>
    match getAnswersSheetInfo sh with
    | .error e => .error e
    | .ok _ => mapME (mapRowE sh) arr

/-- Column j of the grid, reading each row at index j. -/
def colOf (arr : Grid) (j : Nat) : List (Option ℚ) :=
  arr.map (fun r => r.getD j none)

/-- The sections built by outputColumns (src/sudoku.js lines 539-554):
one section per column index. -/
def outputColumnsSections (sh : Sheet) (arr : Grid) : Except Err (List (List Entry)) :=
  match validateSudokuArray sh arr with
  | .error e => .error e
  | .ok _ =>
    match getGridSize sh with
    | .error e => .error e
    | .ok n =>
      match getAnswersSheetInfo sh with
      | .error e => .error e
      | .ok _ => mapME (fun j => mapRowE sh (colOf arr j)) (List.range n)

/-- The comparator of outputSection (src/sudoku.js line 394): ascending
original value. -/
def valueLE (a b : Entry) : Prop := a.value ≤ b.value

instance : DecidableRel valueLE := fun a b => by
  unfold valueLE; infer_instance

instance : IsTotal Entry valueLE :=
  ⟨fun a b => le_total a.value b.value⟩

instance : IsTrans Entry valueLE :=
  ⟨fun _ _ _ h1 h2 => le_trans h1 h2⟩

/-- The sort applied by outputSection to each section before images
are inserted. -/
def sortByValue (l : List Entry) : List Entry :=
  List.insertionSort valueLE l

/-- The order in which outputSection hands entries to rendering: every
section sorted by original value (src/sudoku.js lines 389-399). -/
def renderOrder (sections : List (List Entry)) : List (List Entry) :=
  sections.map sortByValue

/-- A fetched binary resource: origin locator and content type. -/
structure Blob where
  source : String
  contentType : String
deriving DecidableEq

/-- The per-run fetch state: the locator-keyed blob cache and the log
of external fetch calls in order. -/
structure FetchState where
  cache : List (String × Blob)
  fetchLog : List String
deriving DecidableEq

/-- One call of the external fetch collaborator; it is recorded in the
log. -/
def fetchBlob (fetchFn : String → Blob) (url : String) (s : FetchState) :
    Blob × FetchState :=
  (fetchFn url, { s with fetchLog := s.fetchLog ++ [url] })

/-- getImageBlob (src/sudoku.js lines 165-174): serve from the cache
when present, otherwise fetch, tag as image/png, store and return. -/
def getImageBlob (fetchFn : String → Blob) (url : String) (s : FetchState) :
    Blob × FetchState :=
  match s.cache.lookup url with
  | some b => (b, s)
  | none =>
    let fetched := fetchBlob fetchFn url s
    let resized := { fetched.1 with contentType := "image/png" }
    (resized, { fetched.2 with cache := (url, resized) :: fetched.2.cache })

/-- insertImage (src/sudoku.js lines 182-202): fetches the url
directly, without consulting the cache; the document append and the
aspect-ratio resizing are external effects elided here, the fetch
effect is kept. -/
def insertImage (fetchFn : String → Blob) (url : String) (s : FetchState) :
    Blob × FetchState :=
  fetchBlob fetchFn url s

/-- One box-group boundary rectangle, inclusive and 0-indexed. -/
structure Boundary where
  rowStart : Nat
  rowEnd : Nat
  colStart : Nat
  colEnd : Nat
deriving DecidableEq

/-- GROUP_BOUNDARIES_6 (src/sudoku.js lines 39-46). -/
def GROUP_BOUNDARIES_6 : List Boundary :=
  [⟨0, 1, 0, 2⟩, ⟨0, 1, 3, 5⟩, ⟨2, 3, 0, 2⟩, ⟨2, 3, 3, 5⟩, ⟨4, 5, 0, 2⟩, ⟨4, 5, 3, 5⟩]

/-- GROUP_BOUNDARIES_4 (src/sudoku.js lines 49-54). -/
def GROUP_BOUNDARIES_4 : List Boundary :=
  [⟨0, 1, 0, 1⟩, ⟨0, 1, 2, 3⟩, ⟨2, 3, 0, 1⟩, ⟨2, 3, 2, 3⟩]

/-- getGroupBoundaries (src/sudoku.js lines 156-158). -/
def getGroupBoundaries (gridSize : Nat) : List Boundary :=
  if gridSize = 4 then GROUP_BOUNDARIES_4 else GROUP_BOUNDARIES_6

/-- Membership of a cell in a boundary rectangle. -/
def Boundary.holds (b : Boundary) (i j : Nat) : Bool :=
  decide (b.rowStart ≤ i) && decide (i ≤ b.rowEnd) &&
    decide (b.colStart ≤ j) && decide (j ≤ b.colEnd)

/-- Number of cells of the n by n grid covered by a boundary. -/
def cellsCovered (b : Boundary) (n : Nat) : Nat :=
  ((List.range n).map
    (fun i => (List.range n).countP (fun j => b.holds i j))).sum

/-- Input data of getSudokuPuzzle read from the answers sheet: the
value matrix returned by the range read, and the font-weight probe,
with `none` modeling a probe that raises (the catch leaves the cell
unspecified). -/
structure PuzzleInput where
  values : List (List JSVal)
  bold : Nat → Nat → Option String

/-- First maximal run of characters satisfying p, as JS match returns
for a one-class regex. -/
def firstRun (p : Char → Bool) : List Char → Option (List Char)
  | [] => none
  | c :: cs => if p c then some (c :: cs.takeWhile p) else firstRun p cs

/-- parseInt of a digit run. -/
def natOfDigits (cs : List Char) : Nat :=
  cs.foldl (fun acc c => acc * 10 + (c.toNat - 48)) 0

/-- Uppercase-letter class of the start-column regex. -/
def isUpperAZ (c : Char) : Bool := decide ('A' ≤ c) && decide (c ≤ 'Z')

/-- A JS number that Number.isInteger accepts, as a rational with unit
denominator. -/
def jsInt? : JSVal → Option ℚ
  | .num q => if q.den = 1 then some q else none
  | _ => none

/-- getMayOnlyContain (src/sudoku.js lines 406-410): truthiness of the
column 4 cell value. -/
def getMayOnlyContain (sh : Sheet) : Bool :=
  truthy (sh.cellAt 4).value

/-- The grid construction loop of getSudokuPuzzle (src/sudoku.js lines
463-496): a cell keeps its value exactly when the toggle matches the
specified mark and the value is an integer between 1 and the grid
size. -/
def buildPuzzle (n : Nat) (mayOnly : Bool) (values : List (List JSVal))
    (spec : Nat → Nat → Bool) : Grid :=
  (List.range n).map (fun i =>
    (List.range n).map (fun j =>
      let value := (values.getD i []).getD j .empty
      let isSpecified := spec i j
      let shouldInclude := if mayOnly then isSpecified else !isSpecified
      match jsInt? value with
      | some q =>
        if shouldInclude ∧ 1 ≤ q ∧ q ≤ (n : ℚ) then some q else none
      | none => none))

/-- getSudokuPuzzle (src/sudoku.js lines 445-497): resolve the sheet
info and grid size, parse the start cell, read the toggle, then build
the grid; the specified mark of cell (i, j) is a bold font weight at
the shifted answer-sheet coordinates. -/
def getSudokuPuzzle (sh : Sheet) (pin : PuzzleInput) : Except Err Grid :=
  match getAnswersSheetInfo sh with
  | .error e => .error e
  | .ok info =>
    match getGridSize sh with
    | .error e => .error e
    | .ok n =>
      match firstRun isUpperAZ info.startCell.data,
            firstRun Char.isDigit info.startCell.data with
      | some colRun, some digRun =>
        let startColCode := (colRun.headD 'A').toNat
        let startRow := natOfDigits digRun
        let mayOnly := getMayOnlyContain sh
        .ok (buildPuzzle n mayOnly pin.values
          (fun i j => pin.bold (startRow + i) (startColCode - 64 + j) == some "bold"))
      | _, _ => .error .typeError

/-- A blank cell: empty value, no formula. -/
def blankCell : CellData := ⟨.empty, ""⟩

/-- A concrete sheet row whose scan window holds exactly four image
formulas (columns 5 to 8) and whose answers reference names a 4 by 4
sheet. -/
def sheetOk4 : Sheet where
  cellAt := fun c =>
    if c = 3 then ⟨.str "Answers!A1", ""⟩
    else if c = 4 then ⟨.boolean true, ""⟩
    else if c = 5 then ⟨.empty, "=image(\"u1\")"⟩
    else if c = 6 then ⟨.empty, "=image(\"u2\")"⟩
    else if c = 7 then ⟨.empty, "=image(\"u3\")"⟩
    else if c = 8 then ⟨.empty, "=image(\"u4\")"⟩
    else blankCell
  refLookup := fun _ => none

/-- A concrete sheet row whose scan window holds exactly five image
formulas (columns 5 to 9). -/
def sheetCount5 : Sheet where
  cellAt := fun c =>
    if c = 3 then ⟨.str "Answers!A1", ""⟩
    else if c = 5 ∨ c = 6 ∨ c = 7 ∨ c = 8 ∨ c = 9 then ⟨.empty, "=image(\"u\")"⟩
    else blankCell
  refLookup := fun _ => none

/-- Claim C6: for each supported grid size N in 4 and 6, the fixed
group-boundary table has exactly N rectangles, each rectangle covers
exactly N cells of the N by N grid, and every cell lies in exactly one
rectangle. -/
theorem groupBoundaries_partition (n : Nat) (h : n = 4 ∨ n = 6) :
    (getGroupBoundaries n).length = n ∧
    (∀ b ∈ getGroupBoundaries n, cellsCovered b n = n) ∧
    (∀ i < n, ∀ j < n,
      (getGroupBoundaries n).countP (fun b => b.holds i j) = 1) := by
  rcases h with h | h <;> subst h <;> exact ⟨by decide, by decide, by decide⟩

/-- Witness for groupBoundaries_partition at the concrete grid size 6. -/
theorem groupBoundaries_partition_witness :
    (getGroupBoundaries 6).length = 6 ∧
    (∀ i < 6, ∀ j < 6,
      (getGroupBoundaries 6).countP (fun b => b.holds i j) = 1) :=
  ⟨(groupBoundaries_partition 6 (Or.inr rfl)).1,
   (groupBoundaries_partition 6 (Or.inr rfl)).2.2⟩

/-- Claim C1: the scan window has six cells so the reference count is
at most 6; the resolver returns 4 exactly on count 4 and 6 exactly on
count 6, fails with the invalid-grid-size error on every other count,
and never returns a value other than 4 or 6. -/
theorem gridSize_resolution (sh : Sheet) :
    windowCount sh ≤ 6 ∧
    (windowCount sh = 4 → getGridSize sh = .ok 4) ∧
    (windowCount sh = 6 → getGridSize sh = .ok 6) ∧
    (windowCount sh ≠ 4 → windowCount sh ≠ 6 →
      getGridSize sh = .error (.invalidGridSize (windowCount sh))) ∧
    (∀ n, getGridSize sh = .ok n → n = 4 ∨ n = 6) := by
  refine ⟨?_, ?_, ?_, ?_, ?_⟩
  · exact List.countP_le_length _
  · intro h; simp [getGridSize, h]
  · intro h; simp [getGridSize, h]
  · intro h4 h6; simp [getGridSize, h4, h6]
  · intro n h
    by_cases h4 : windowCount sh = 4
    · simp [getGridSize, h4] at h; exact Or.inl h.symm
    · by_cases h6 : windowCount sh = 6
      · simp [getGridSize, h4, h6] at h; exact Or.inr h.symm
      · simp [getGridSize, h4, h6] at h

/-- Witness for gridSize_resolution: a window with four references
resolves to 4 and a window with five references fails. -/
theorem gridSize_resolution_witness :
    getGridSize sheetOk4 = .ok 4 ∧
    getGridSize sheetCount5 = .error (.invalidGridSize 5) := by
  refine ⟨(gridSize_resolution sheetOk4).2.1 (by decide), ?_⟩
  have h := (gridSize_resolution sheetCount5).2.2.2.1 (by decide) (by decide)
  rwa [show windowCount sheetCount5 = 5 from by decide] at h

/-- Claim C2: whatever sections outputSection receives, along any of
the three axes, every section handed to rendering is sorted so that
the original values are non-decreasing. -/
theorem renderOrder_sorted (sections : List (List Entry)) :
    ∀ s ∈ renderOrder sections, List.Sorted valueLE s := by
  intro s hs
  rcases List.mem_map.1 hs with ⟨t, _, rfl⟩
  exact List.sorted_insertionSort valueLE t

/-- Witness for renderOrder_sorted on a concrete two-entry section
extracted out of spatial order. -/
theorem renderOrder_sorted_witness :
    List.Sorted valueLE (sortByValue [⟨"b", 2⟩, ⟨"a", 1⟩]) :=
  renderOrder_sorted [[⟨"b", 2⟩, ⟨"a", 1⟩]]
    (sortByValue [⟨"b", 2⟩, ⟨"a", 1⟩]) (by simp [renderOrder])

/-- A concrete fetch collaborator for the cache counterexample. -/
def cexFetchFn : String → Blob := fun u => ⟨u, "raw"⟩

/-- Claim C3 counterexample: in src/sudoku.js the rendering path
(insertImage) fetches on every insertion, so rendering the same
locator twice performs two external fetches, not at most one per
distinct locator. -/
theorem renderFetch_cex :
    ((insertImage cexFetchFn "http://img"
        (insertImage cexFetchFn "http://img" ⟨[], []⟩).2).2).fetchLog.count
          "http://img" = 2 ∧
    ¬ (((insertImage cexFetchFn "http://img"
        (insertImage cexFetchFn "http://img" ⟨[], []⟩).2).2).fetchLog.count
          "http://img" ≤ 1) := by
  exact ⟨by decide, by decide⟩

/-- Claim C3 (amended): resolving is a pure read, so the locator of a
number is stable within a run; the blob cache (getImageBlob) serves a
repeated locator from the cache, with the same blob, an unchanged
state and no second fetch; but the rendering path of src/sudoku.js
(insertImage) performs an external fetch on every single insertion. -/
theorem blobCache_idempotent (fetchFn : String → Blob) (url : String)
    (s : FetchState) :
    (getImageBlob fetchFn url (getImageBlob fetchFn url s).2).1
        = (getImageBlob fetchFn url s).1 ∧
    (getImageBlob fetchFn url (getImageBlob fetchFn url s).2).2
        = (getImageBlob fetchFn url s).2 ∧
    (getImageBlob fetchFn url s).2.fetchLog.length ≤ s.fetchLog.length + 1 ∧
    (insertImage fetchFn url s).2.fetchLog = s.fetchLog ++ [url] := by
  cases h : s.cache.lookup url with
  | some b =>
    refine ⟨?_, ?_, ?_, ?_⟩ <;>
      simp [getImageBlob, insertImage, fetchBlob, h]
  | none =>
    refine ⟨?_, ?_, ?_, ?_⟩ <;>
      simp [getImageBlob, insertImage, fetchBlob, h, List.lookup]

/-- The Bool cell check agrees with the Prop cell predicate. -/
theorem validCell_iff (n : Nat) (c : Option ℚ) :
    validCell n c = true ↔ cellInRange n c := by
  cases c <;> simp [validCell, cellInRange]

/-- The validator succeeds exactly on grids with n rows, every row of
length n, and every cell null or a number between 1 and n. -/
theorem validateArray_ok_iff (n : Nat) (arr : Grid) :
    validateArray n arr = .ok () ↔
      (arr.length = n ∧ (∀ r ∈ arr, r.length = n) ∧
        (∀ r ∈ arr, ∀ c ∈ r, cellInRange n c)) := by
  simp only [validateArray, List.all_eq_true, decide_eq_true_eq, validCell_iff]
  split_ifs with h1 h2 h3 <;> simp_all
  exact h3

/-- A wrong row count yields the dimension error. -/
theorem validateArray_err1 (n : Nat) (arr : Grid) (h : arr.length ≠ n) :
    validateArray n arr = .error .dimsError := by
  simp [validateArray, h]

/-- A wrong row length yields the row-dimension error. -/
theorem validateArray_err2 (n : Nat) (arr : Grid) (h1 : arr.length = n)
    (h2 : ¬ ∀ r ∈ arr, r.length = n) :
    validateArray n arr = .error .rowDimsError := by
  simp only [validateArray, List.all_eq_true, decide_eq_true_eq]
  rw [if_neg (by simp [h1]), if_pos (by simpa using h2)]

/-- An out-of-range cell yields the range error. -/
theorem validateArray_err3 (n : Nat) (arr : Grid) (h1 : arr.length = n)
    (h2 : ∀ r ∈ arr, r.length = n)
    (h3 : ¬ ∀ r ∈ arr, ∀ c ∈ r, cellInRange n c) :
    validateArray n arr = .error .rangeError := by
  simp only [validateArray, List.all_eq_true, decide_eq_true_eq, validCell_iff]
  rw [if_neg (by simp [h1]), if_neg (by simpa using h2), if_pos (by simpa using h3)]

/-- The non-integer number five halves, built without normalization. -/
def fiveHalves : ℚ := ⟨5, 2, by decide, by decide⟩

/-- A 4 by 4 grid holding the non-integer five halves in its first
cell. -/
def halfGrid : Grid :=
  [[some fiveHalves, some 1, some 1, some 1],
   [some 1, some 1, some 1, some 1],
   [some 1, some 1, some 1, some 1],
   [some 1, some 1, some 1, some 1]]

/-- Claim C4 counterexample: the grid holding five halves, a cell that
is neither null nor an integer in the range 1 to 4, passes validation
instead of failing with the range error. -/
theorem validateArray_cex :
    validateArray 4 halfGrid = .ok () ∧
    some fiveHalves ∈ halfGrid.flatten ∧
    fiveHalves.den ≠ 1 := by
  exact ⟨by decide, by decide, by decide⟩

/-- Claim C4 (amended): the validator fails with a shape error when
the row count or a row length differs from N, fails with the range
error when some cell is neither null nor a NUMBER between 1 and N,
and succeeds exactly on N by N arrays whose cells are null or numbers
in that range; integrality of cell values is not checked. -/
theorem validateArray_characterization (n : Nat) (arr : Grid) :
    (validateArray n arr = .ok () ↔
      (arr.length = n ∧ (∀ r ∈ arr, r.length = n) ∧
        (∀ r ∈ arr, ∀ c ∈ r, cellInRange n c))) ∧
    (arr.length ≠ n → validateArray n arr = .error .dimsError) ∧
    (arr.length = n → (¬ ∀ r ∈ arr, r.length = n) →
      validateArray n arr = .error .rowDimsError) ∧
    (arr.length = n → (∀ r ∈ arr, r.length = n) →
      (¬ ∀ r ∈ arr, ∀ c ∈ r, cellInRange n c) →
      validateArray n arr = .error .rangeError) :=
  ⟨validateArray_ok_iff n arr,
   validateArray_err1 n arr,
   validateArray_err2 n arr,
   validateArray_err3 n arr⟩

/-- Witness for validateArray_characterization: a concrete valid grid
passes and a concrete one-row grid fails with the dimension error. -/
theorem validateArray_characterization_witness :
    validateArray 4 halfGrid = .ok () ∧
    validateArray 4 [[some 1]] = .error .dimsError :=
  ⟨(validateArray_characterization 4 halfGrid).1.mpr (by decide),
   (validateArray_characterization 4 [[some 1]]).2.1 (by decide)⟩

/-- A concrete sheet row whose first image cell has no formula but an
in-cell image value. -/
def sheetNoFormula : Sheet where
  cellAt := fun c =>
    if c = 3 then ⟨.str "Answers!A1", ""⟩
    else if c = 5 then ⟨.cellImage "http://img1", ""⟩
    else blankCell
  refLookup := fun _ => none

/-- Claim C5 counterexample: number 1 addresses a cell whose formula
is empty, hence not recognized as an image formula, yet the resolver
returns a locator, the content URL of the in-cell image, instead of
failing with the missing-formula error. -/
theorem missingFormula_cex :
    (sheetNoFormula.cellAt ((1 : ℚ) + 4)).formula = "" ∧
    ((sheetNoFormula.cellAt ((1 : ℚ) + 4)).formula.data.take 7).map
        Char.toLower ≠ imagePattern ∧
    getImageFromCell sheetNoFormula 1 = .ok "http://img1" := by
  have h : sheetNoFormula.cellAt ((1 : ℚ) + 4) = ⟨.cellImage "http://img1", ""⟩ := by
    norm_num [sheetNoFormula]
  refine ⟨by rw [h], by rw [h]; decide, ?_⟩
  simp only [getImageFromCell, h]
  decide

/-- Claim C5 (amended): for an in-range number, a NONEMPTY formula
that does not start with the image marker fails with the
missing-formula error; an EMPTY formula is instead resolved through
the content URL of the in-cell image value of the addressed cell. -/
theorem missingFormula_amended (sh : Sheet) (num : ℚ) (info : SheetInfo)
    (hinfo : getAnswersSheetInfo sh = .ok info)
    (hlo : 1 ≤ num)
    (hhi : num ≤ (if info.sheetName.data.contains '6' then (6 : ℚ) else 4)) :
    ((sh.cellAt (num + 4)).formula ≠ "" →
      ((sh.cellAt (num + 4)).formula.data.take 7).map Char.toLower ≠ imagePattern →
      getImageFromCell sh num = .error .missingFormula) ∧
    (∀ u, (sh.cellAt (num + 4)).formula = "" →
      (sh.cellAt (num + 4)).value = .cellImage u →
      getImageFromCell sh num = .ok u) := by
  have hrange : ¬ (num < 1 ∨ num > (if info.sheetName.data.contains '6' then (6 : ℚ) else 4)) := by
    rintro (h | h)
    · exact absurd hlo (not_le.2 h)
    · exact absurd hhi (not_le.2 h)
  constructor
  · intro hne hnp
    simp only [getImageFromCell, hinfo]
    rw [if_neg hrange, if_neg hne, if_pos hnp]
  · intro u hf hv
    simp only [getImageFromCell, hinfo]
    rw [if_neg hrange, if_pos hf, hv]

/-- A concrete sheet row whose first image cell holds a nonempty
formula that is not an image formula. -/
def sheetBadFormula : Sheet where
  cellAt := fun c =>
    if c = 3 then ⟨.str "Answers!A1", ""⟩
    else if c = 5 then ⟨.empty, "hello"⟩
    else blankCell
  refLookup := fun _ => none

/-- Witness for missingFormula_amended: a nonempty non-image formula
fails with the missing-formula error, and an empty formula over an
in-cell image yields its content URL. -/
theorem missingFormula_amended_witness :
    getImageFromCell sheetBadFormula 1 = .error .missingFormula ∧
    getImageFromCell sheetNoFormula 1 = .ok "http://img1" := by
  constructor
  · refine (missingFormula_amended sheetBadFormula 1 ⟨"Answers", "A1"⟩
      (by decide) (by decide) (by decide)).1 ?_ ?_
    · rw [show sheetBadFormula.cellAt ((1 : ℚ) + 4) = ⟨.empty, "hello"⟩ from by
        norm_num [sheetBadFormula]]
      decide
    · rw [show sheetBadFormula.cellAt ((1 : ℚ) + 4) = ⟨.empty, "hello"⟩ from by
        norm_num [sheetBadFormula]]
      decide
  · refine (missingFormula_amended sheetNoFormula 1 ⟨"Answers", "A1"⟩
      (by decide) (by decide) (by decide)).2 "http://img1" ?_ ?_
    · rw [show sheetNoFormula.cellAt ((1 : ℚ) + 4) = ⟨.cellImage "http://img1", ""⟩ from by
        norm_num [sheetNoFormula]]
    · rw [show sheetNoFormula.cellAt ((1 : ℚ) + 4) = ⟨.cellImage "http://img1", ""⟩ from by
        norm_num [sheetNoFormula]]

/-- takeWhile over an append whose first part satisfies the
predicate. -/
theorem takeWhile_append_all (p : Char → Bool) (l1 l2 : List Char)
    (h : ∀ c ∈ l1, p c = true) :
    (l1 ++ l2).takeWhile p = l1 ++ l2.takeWhile p := by
  induction l1 with
  | nil => simp
  | cons a t ih =>
    have ha := h a (List.mem_cons_self a t)
    simp [List.takeWhile_cons, ha,
      ih (fun c hc => h c (List.mem_cons_of_mem a hc))]

/-- The head-position regex attempt succeeds on a well-formed image
formula and returns exactly the argument characters. -/
theorem tryImageAt_exact (cs : List Char) (hne : cs ≠ [])
    (hnp : ∀ c ∈ cs, c ≠ ')') :
    tryImageAt (imagePattern ++ cs ++ [')']) = some cs := by
  have htake : (imagePattern ++ cs ++ [')']).take 7 = imagePattern := by
    rw [List.append_assoc]
    exact List.take_left' (by decide)
  have hdrop : (imagePattern ++ cs ++ [')']).drop 7 = cs ++ [')'] := by
    rw [List.append_assoc]
    exact List.drop_left' (by decide)
  have htw : (cs ++ [')']).takeWhile (fun c => c ≠ ')') = cs := by
    rw [takeWhile_append_all _ cs [')'] (fun c hc => by simpa using hnp c hc)]
    simp [List.takeWhile]
  simp only [tryImageAt, htake, hdrop, htw]
  rw [if_pos (by decide), if_pos]
  constructor
  · simpa using hne
  · simp

/-- The left-to-right regex scan finds a head-position match. -/
theorem findImageArg_of_tryImageAt (cs res : List Char)
    (h : tryImageAt cs = some res) : findImageArg cs = some res := by
  cases cs with
  | nil => simp [tryImageAt, imagePattern] at h
  | cons c rest => simp [findImageArg, h]

/-- The regex scan over a well-formed image formula returns exactly
the argument characters. -/
theorem findImageArg_exact (cs : List Char) (hne : cs ≠ [])
    (hnp : ∀ c ∈ cs, c ≠ ')') :
    findImageArg (imagePattern ++ cs ++ [')']) = some cs :=
  findImageArg_of_tryImageAt _ _ (tryImageAt_exact cs hne hnp)

/-- Claim C8: for a resolution whose image-formula argument is an
unquoted cross-sheet reference, a looked-up string value that is not
blank is returned as the locator, and a looked-up value that is empty
(blank, which is how the code itself words its error message) or not
a string fails with the empty-reference error naming the referenced
cell. -/
theorem crossSheetRef_resolution (sh : Sheet) (num : ℚ) (info : SheetInfo)
    (cs : List Char)
    (hinfo : getAnswersSheetInfo sh = .ok info)
    (hlo : 1 ≤ num)
    (hhi : num ≤ (if info.sheetName.data.contains '6' then (6 : ℚ) else 4))
    (hform : (sh.cellAt (num + 4)).formula = String.mk (imagePattern ++ cs ++ [')']))
    (hne : cs ≠ []) (hnp : ∀ c ∈ cs, c ≠ ')')
    (hq : isQuoted cs = false) (hbang : cs.contains '!' = true) :
    (∀ s, sh.refLookup (String.mk cs) = some (.str s) → jsTrim s ≠ "" →
      getImageFromCell sh num = .ok s) ∧
    (∀ v, sh.refLookup (String.mk cs) = some v →
      (∀ s, v = .str s → jsTrim s = "") →
      getImageFromCell sh num = .error
        (.refFailed (String.mk cs) (.emptyRef (String.mk cs)))) := by
  have hrange : ¬ (num < 1 ∨
      num > (if info.sheetName.data.contains '6' then (6 : ℚ) else 4)) := by
    rintro (h | h)
    · exact absurd hlo (not_le.2 h)
    · exact absurd hhi (not_le.2 h)
  have hfd : (sh.cellAt (num + 4)).formula.data = imagePattern ++ cs ++ [')'] := by
    rw [hform]
  have hfne : (sh.cellAt (num + 4)).formula ≠ "" := by
    rw [hform]
    intro hcon
    have : (imagePattern ++ cs ++ [')']) = [] := congrArg String.data hcon
    simp [imagePattern] at this
  have hpre : ((sh.cellAt (num + 4)).formula.data.take 7).map Char.toLower
      = imagePattern := by
    rw [hfd, List.append_assoc, List.take_left' (by decide)]
    decide
  have hfind : findImageArg (sh.cellAt (num + 4)).formula.data = some cs := by
    rw [hfd]
    exact findImageArg_exact cs hne hnp
  constructor
  · intro s hs hts
    simp only [getImageFromCell, hinfo]
    rw [if_neg hrange, if_neg hfne, if_neg (not_not_intro hpre)]
    simp only [hfind, hq, Bool.false_eq_true, if_false, hbang, if_true, hs]
    rw [if_neg hts]
  · intro v hv hblank
    simp only [getImageFromCell, hinfo]
    rw [if_neg hrange, if_neg hfne, if_neg (not_not_intro hpre)]
    simp only [hfind, hq, Bool.false_eq_true, if_false, hbang, if_true, hv]
    cases v with
    | str s => simp [hblank s rfl]
    | num q => simp
    | boolean b => simp
    | empty => simp
    | cellImage u => simp

/-- A concrete sheet row whose first image formula is an unquoted
cross-sheet reference to a populated catalog cell. -/
def sheetRefOk : Sheet where
  cellAt := fun c =>
    if c = 3 then ⟨.str "Answers!A1", ""⟩
    else if c = 5 then ⟨.empty, "=image(Catalog!B5)"⟩
    else blankCell
  refLookup := fun r =>
    if r = "Catalog!B5" then some (.str "http://cat") else none

/-- A concrete sheet row whose first image formula is an unquoted
cross-sheet reference to an empty catalog cell. -/
def sheetRefEmpty : Sheet where
  cellAt := fun c =>
    if c = 3 then ⟨.str "Answers!A1", ""⟩
    else if c = 5 then ⟨.empty, "=image(Catalog!B5)"⟩
    else blankCell
  refLookup := fun r =>
    if r = "Catalog!B5" then some (.str "") else none

/-- Witness for crossSheetRef_resolution: the populated reference
resolves to the catalog string, the empty reference fails with the
empty-reference error naming Catalog!B5. -/
theorem crossSheetRef_resolution_witness :
    getImageFromCell sheetRefOk 1 = .ok "http://cat" ∧
    getImageFromCell sheetRefEmpty 1 = .error
      (.refFailed "Catalog!B5" (.emptyRef "Catalog!B5")) := by
  constructor
  · refine (crossSheetRef_resolution sheetRefOk 1 ⟨"Answers", "A1"⟩
      "Catalog!B5".data (by decide) (by decide) (by decide) ?_ (by decide)
      (by decide) (by decide) (by decide)).1 "http://cat" (by decide) (by decide)
    rw [show sheetRefOk.cellAt ((1 : ℚ) + 4) = ⟨.empty, "=image(Catalog!B5)"⟩ from by
      norm_num [sheetRefOk]]
    decide
  · refine (crossSheetRef_resolution sheetRefEmpty 1 ⟨"Answers", "A1"⟩
      "Catalog!B5".data (by decide) (by decide) (by decide) ?_ (by decide)
      (by decide) (by decide) (by decide)).2 (.str "") (by decide) ?_
    · rw [show sheetRefEmpty.cellAt ((1 : ℚ) + 4) = ⟨.empty, "=image(Catalog!B5)"⟩ from by
        norm_num [sheetRefEmpty]]
      decide
    · intro s h
      injection h with h2
      rw [← h2]
      decide

/-- The entries a slice keeps out of a list of cells, given the
locator each value resolves to: null cells and cells whose locator is
the empty string are dropped. -/
def keptEntries (res : ℚ → String) (l : List (Option ℚ)) : List Entry :=
  l.filterMap (fun o => o.bind (fun v =>
    if res v ≠ "" then some ⟨res v, v⟩ else none))

/-- When every value of the list resolves successfully, the section
walk succeeds and keeps exactly the entries with nonempty locator. -/
theorem mapRowE_resolves (sh : Sheet) (res : ℚ → String) :
    ∀ l : List (Option ℚ),
      (∀ v : ℚ, some v ∈ l → getImageFromCell sh v = .ok (res v)) →
      mapRowE sh l = .ok (keptEntries res l) := by
  intro l
  induction l with
  | nil => intro _; rfl
  | cons a t ih =>
    intro h
    have ht := ih (fun v hv => h v (List.mem_cons_of_mem a hv))
    cases a with
    | none => simp [mapRowE, rowEntry, ht, keptEntries]
    | some v =>
      have hv := h v (List.mem_cons_self _ _)
      by_cases hres : res v = ""
      · simp [mapRowE, rowEntry, hv, ht, keptEntries, hres]
      · simp [mapRowE, rowEntry, hv, ht, keptEntries, hres]

/-- When every value of the list resolves to a nonempty locator, no
entry is dropped. -/
theorem keptEntries_all_kept (res : ℚ → String) :
    ∀ l : List (Option ℚ), (∀ v : ℚ, some v ∈ l → res v ≠ "") →
      keptEntries res l = l.reduceOption.map (fun v => ⟨res v, v⟩) := by
  intro l
  induction l with
  | nil => intro _; rfl
  | cons a t ih =>
    intro h
    have ht := ih (fun v hv => h v (List.mem_cons_of_mem a hv))
    cases a with
    | none => simp [keptEntries, List.reduceOption_cons_of_none] at ht ⊢; exact ht
    | some v =>
      have hv := h v (List.mem_cons_self _ _)
      simp [keptEntries, List.reduceOption_cons_of_some, hv] at ht ⊢
      exact ht

/-- Every kept entry originates in a cell of the list and has a
nonempty locator. -/
theorem keptEntries_mem (res : ℚ → String) :
    ∀ (l : List (Option ℚ)) (e : Entry), e ∈ keptEntries res l →
      some e.value ∈ l ∧ res e.value ≠ "" ∧ e.url = res e.value := by
  intro l
  induction l with
  | nil => intro e he; simp [keptEntries] at he
  | cons a t ih =>
    intro e he
    cases a with
    | none =>
      have h2 := ih e (by simpa [keptEntries] using he)
      exact ⟨List.mem_cons_of_mem _ h2.1, h2.2⟩
    | some v =>
      by_cases hres : res v = ""
      · have h2 := ih e (by simpa [keptEntries, hres] using he)
        exact ⟨List.mem_cons_of_mem _ h2.1, h2.2⟩
      · have he2 : e = (⟨res v, v⟩ : Entry) ∨ e ∈ keptEntries res t := by
          simpa [keptEntries, hres] using he
        rcases he2 with rfl | hmem
        · exact ⟨by simp, by simpa using hres, rfl⟩
        · have h2 := ih e hmem
          exact ⟨List.mem_cons_of_mem _ h2.1, h2.2⟩

/-- Monadic map succeeds pointwise when every element succeeds. -/
theorem mapME_ok_of_forall {α β : Type} (f : α → Except Err β) (g : α → β) :
    ∀ l : List α, (∀ a ∈ l, f a = .ok (g a)) → mapME f l = .ok (l.map g) := by
  intro l
  induction l with
  | nil => intro _; rfl
  | cons a t ih =>
    intro h
    simp [mapME, h a (List.mem_cons_self _ _),
      ih (fun b hb => h b (List.mem_cons_of_mem a hb))]

/-- A successful monadic map has one output per input, each produced
by some input element. -/
theorem mapME_sections {α β : Type} (f : α → Except Err β) :
    ∀ (l : List α) (bs : List β), mapME f l = .ok bs →
      bs.length = l.length ∧ ∀ b ∈ bs, ∃ a ∈ l, f a = .ok b := by
  intro l
  induction l with
  | nil =>
    intro bs h
    simp [mapME] at h
    subst h
    exact ⟨rfl, by simp⟩
  | cons a t ih =>
    intro bs h
    cases hfa : f a with
    | error e => rw [mapME, hfa] at h; cases h
    | ok b =>
      cases hmt : mapME f t with
      | error e => rw [mapME, hfa, hmt] at h; cases h
      | ok bs2 =>
        rw [mapME, hfa, hmt] at h
        have hbs : bs = b :: bs2 := by
          cases h; rfl
        subst hbs
        obtain ⟨hlen, hmem⟩ := ih bs2 hmt
        refine ⟨by simp [hlen], ?_⟩
        intro x hx
        rcases List.mem_cons.1 hx with rfl | hx2
        · exact ⟨a, List.mem_cons_self _ _, hfa⟩
        · obtain ⟨a2, ha2, hfa2⟩ := hmem x hx2
          exact ⟨a2, List.mem_cons_of_mem _ ha2, hfa2⟩

/-- A concrete sheet row whose first image formula carries a quoted
EMPTY locator, and three good ones. -/
def sheetEmptyUrl : Sheet where
  cellAt := fun c =>
    if c = 3 then ⟨.str "Answers!A1", ""⟩
    else if c = 5 then ⟨.empty, "=image(\"\")"⟩
    else if c = 6 then ⟨.empty, "=image(\"u2\")"⟩
    else if c = 7 then ⟨.empty, "=image(\"u3\")"⟩
    else if c = 8 then ⟨.empty, "=image(\"u4\")"⟩
    else blankCell
  refLookup := fun _ => none

/-- On sheetEmptyUrl the value 1 resolves to the empty locator. -/
theorem gifc_sheetEmptyUrl_1 : getImageFromCell sheetEmptyUrl 1 = .ok "" := by
  have h : sheetEmptyUrl.cellAt ((1 : ℚ) + 4) = ⟨.empty, "=image(\"\")"⟩ := by
    norm_num [sheetEmptyUrl]
  simp only [getImageFromCell, h]
  decide

/-- A 4 by 4 grid whose only non-null cell holds the value 1. -/
def cexGrid7 : Grid :=
  [[some 1, none, none, none], [none, none, none, none],
   [none, none, none, none], [none, none, none, none]]

/-- Claim C7 counterexample: on a sheet where the value 1 resolves to
the empty locator, the row extraction succeeds with four slices that
carry NO value at all, although cell (0, 0) of the grid is non-null
with value 1; the union of carried values misses a non-null cell. -/
theorem rowSlices_union_cex :
    outputRowsSections sheetEmptyUrl cexGrid7 = .ok [[], [], [], []] ∧
    some (1 : ℚ) ∈ cexGrid7.flatten := by
  constructor
  · simp only [outputRowsSections,
      show validateSudokuArray sheetEmptyUrl cexGrid7 = .ok () from by decide,
      show getAnswersSheetInfo sheetEmptyUrl = .ok ⟨"Answers", "A1"⟩ from by decide]
    simp [cexGrid7, mapME, mapRowE, rowEntry, gifc_sheetEmptyUrl_1]
  · decide

/-- Flattening per-row reductions is reducing the flattened grid. -/
theorem flatten_map_reduceOption (L : Grid) :
    (L.map (fun r => r.reduceOption)).flatten = L.flatten.reduceOption := by
  induction L with
  | nil => rfl
  | cons r t ih => simp [List.reduceOption_append, ih]

/-- Claim C7 (amended): for a valid grid whose every non-null value
resolves successfully to a NONEMPTY locator, the row extraction
produces exactly N slices, one per grid row in row order, and the
values carried by the slices are exactly the non-null cells of the
grid; when some value resolves to an empty locator its entries are
dropped, as the counterexample shows. -/
theorem rowSlices_amended (sh : Sheet) (arr : Grid) (res : ℚ → String)
    (info : SheetInfo)
    (hres : ∀ v ∈ arr.flatten.reduceOption, getImageFromCell sh v = .ok (res v))
    (hne : ∀ v ∈ arr.flatten.reduceOption, res v ≠ "")
    (hvalid : validateSudokuArray sh arr = .ok ())
    (hinfo : getAnswersSheetInfo sh = .ok info) :
    ∃ n, getGridSize sh = .ok n ∧ arr.length = n ∧
      outputRowsSections sh arr =
        .ok (arr.map (fun r => r.reduceOption.map (fun v => ⟨res v, v⟩))) ∧
      (arr.map (fun r => r.reduceOption.map (fun v => (⟨res v, v⟩ : Entry)))).length
        = n ∧
      ((arr.map (fun r => r.reduceOption.map (fun v => (⟨res v, v⟩ : Entry)))).flatten.map
        Entry.value) = arr.flatten.reduceOption := by
  have hmem : ∀ r ∈ arr, ∀ v : ℚ, some v ∈ r → v ∈ arr.flatten.reduceOption := by
    intro r hr v hv
    rw [List.reduceOption_mem_iff]
    exact List.mem_flatten.2 ⟨r, hr, hv⟩
  obtain ⟨n, hn, hva⟩ : ∃ n, getGridSize sh = .ok n ∧ validateArray n arr = .ok () := by
    unfold validateSudokuArray at hvalid
    cases hgs : getGridSize sh with
    | error e => rw [hgs] at hvalid; cases hvalid
    | ok m => rw [hgs] at hvalid; exact ⟨m, rfl, hvalid⟩
  have hlen : arr.length = n := ((validateArray_ok_iff n arr).1 hva).1
  refine ⟨n, hn, hlen, ?_, by simpa using hlen, ?_⟩
  · simp only [outputRowsSections, hvalid, hinfo]
    refine mapME_ok_of_forall _ _ arr (fun r hr => ?_)
    rw [mapRowE_resolves sh res r (fun v hv => hres v (hmem r hr v hv))]
    rw [keptEntries_all_kept res r (fun v hv => hne v (hmem r hr v hv))]
  · have hrow : ∀ r : List (Option ℚ),
        ((r.reduceOption.map (fun v => (⟨res v, v⟩ : Entry))).map Entry.value)
          = r.reduceOption := by
      intro r
      rw [List.map_map,
        show (Entry.value ∘ fun v : ℚ => (⟨res v, v⟩ : Entry)) = id from rfl,
        List.map_id]
    rw [List.map_flatten, List.map_map]
    have : (List.map Entry.value ∘ fun r : List (Option ℚ) =>
        r.reduceOption.map (fun v => (⟨res v, v⟩ : Entry)))
          = fun r : List (Option ℚ) => r.reduceOption := by
      funext r
      exact hrow r
    rw [this, flatten_map_reduceOption]

/-- The locator table of sheetOk4. -/
def resOk4 : ℚ → String := fun v =>
  if v = 1 then "u1" else if v = 2 then "u2" else if v = 3 then "u3"
  else if v = 4 then "u4" else ""

/-- On sheetOk4 every value from 1 to 4 resolves to its locator. -/
theorem gifc_sheetOk4 :
    ∀ v ∈ ([1, 2, 3, 4] : List ℚ),
      getImageFromCell sheetOk4 v = .ok (resOk4 v) := by
  have h1 : sheetOk4.cellAt ((1 : ℚ) + 4) = ⟨.empty, "=image(\"u1\")"⟩ := by
    norm_num [sheetOk4]
  have h2 : sheetOk4.cellAt ((2 : ℚ) + 4) = ⟨.empty, "=image(\"u2\")"⟩ := by
    norm_num [sheetOk4]
  have h3 : sheetOk4.cellAt ((3 : ℚ) + 4) = ⟨.empty, "=image(\"u3\")"⟩ := by
    norm_num [sheetOk4]
  have h4 : sheetOk4.cellAt ((4 : ℚ) + 4) = ⟨.empty, "=image(\"u4\")"⟩ := by
    norm_num [sheetOk4]
  intro v hv
  fin_cases hv
  · simp only [getImageFromCell, h1]; decide
  · simp only [getImageFromCell, h2]; decide
  · simp only [getImageFromCell, h3]; decide
  · simp only [getImageFromCell, h4]; decide

/-- A 4 by 4 grid with the values 1 to 4 on the diagonal. -/
def diagGrid : Grid :=
  [[some 1, none, none, none], [none, some 2, none, none],
   [none, none, some 3, none], [none, none, none, some 4]]

/-- Witness for rowSlices_amended at the diagonal grid on sheetOk4. -/
theorem rowSlices_amended_witness :
    ∃ n, getGridSize sheetOk4 = .ok n ∧ diagGrid.length = n ∧
      outputRowsSections sheetOk4 diagGrid =
        .ok (diagGrid.map (fun r => r.reduceOption.map (fun v => ⟨resOk4 v, v⟩))) ∧
      (diagGrid.map (fun r =>
        r.reduceOption.map (fun v => (⟨resOk4 v, v⟩ : Entry)))).length = n ∧
      ((diagGrid.map (fun r =>
        r.reduceOption.map (fun v => (⟨resOk4 v, v⟩ : Entry)))).flatten.map
          Entry.value) = diagGrid.flatten.reduceOption :=
  rowSlices_amended sheetOk4 diagGrid resOk4 ⟨"Answers", "A1"⟩
    (by
      have he : diagGrid.flatten.reduceOption = ([1, 2, 3, 4] : List ℚ) := by decide
      rw [he]
      exact gifc_sheetOk4)
    (by
      have he : diagGrid.flatten.reduceOption = ([1, 2, 3, 4] : List ℚ) := by decide
      rw [he]
      intro v hv
      fin_cases hv <;> decide)
    (by decide) (by decide)

/-- A successful combined validation yields a resolved grid size with
a successful array check. -/
theorem validateSudokuArray_ok (sh : Sheet) (arr : Grid)
    (h : validateSudokuArray sh arr = .ok ()) :
    ∃ n, getGridSize sh = .ok n ∧ validateArray n arr = .ok () := by
  unfold validateSudokuArray at h
  cases hgs : getGridSize sh with
  | error e => rw [hgs] at h; cases h
  | ok m => rw [hgs] at h; exact ⟨m, rfl, h⟩

/-- A value present in a column of the grid is a non-null value of the
grid. -/
theorem colOf_mem (arr : Grid) (j : Nat) (v : ℚ)
    (hv : some v ∈ colOf arr j) : v ∈ arr.flatten.reduceOption := by
  rw [List.reduceOption_mem_iff]
  rcases List.mem_map.1 hv with ⟨r, hr, hget⟩
  refine List.mem_flatten.2 ⟨r, hr, ?_⟩
  rw [List.getD_eq_getElem?_getD] at hget
  cases hg : r[j]? with
  | none => rw [hg] at hget; cases hget
  | some o =>
    rw [hg] at hget
    simp only [Option.getD_some] at hget
    subst hget
    exact List.getElem?_mem hg

/-- A value present in a row of the grid is a non-null value of the
grid. -/
theorem rowOf_mem (arr : Grid) (r : List (Option ℚ)) (hr : r ∈ arr) (v : ℚ)
    (hv : some v ∈ r) : v ∈ arr.flatten.reduceOption := by
  rw [List.reduceOption_mem_iff]
  exact List.mem_flatten.2 ⟨r, hr, hv⟩

/-- Claim C10: when every non-null value of a valid grid resolves
successfully but the value v0 resolves to the empty (falsy) locator,
both the row extraction and the column extraction succeed without any
error, and no entry carrying v0 appears in any produced slice: the
non-null cells holding v0 are silently dropped. -/
theorem falsyLocator_dropped (sh : Sheet) (arr : Grid) (res : ℚ → String)
    (info : SheetInfo) (v0 : ℚ)
    (hres : ∀ v ∈ arr.flatten.reduceOption, getImageFromCell sh v = .ok (res v))
    (hvalid : validateSudokuArray sh arr = .ok ())
    (hinfo : getAnswersSheetInfo sh = .ok info)
    (_hmem0 : some v0 ∈ arr.flatten)
    (hv0 : res v0 = "") :
    ∃ rss css, outputRowsSections sh arr = .ok rss ∧
      outputColumnsSections sh arr = .ok css ∧
      (∀ s ∈ rss, ∀ e ∈ s, e.value ≠ v0) ∧
      (∀ s ∈ css, ∀ e ∈ s, e.value ≠ v0) := by
  obtain ⟨n, hn, hva⟩ := validateSudokuArray_ok sh arr hvalid
  have hrowsOk : outputRowsSections sh arr = .ok (arr.map (keptEntries res)) := by
    simp only [outputRowsSections, hvalid, hinfo]
    exact mapME_ok_of_forall _ _ arr (fun r hr =>
      mapRowE_resolves sh res r (fun v hv => hres v (rowOf_mem arr r hr v hv)))
  have hcolsOk : outputColumnsSections sh arr =
      .ok ((List.range n).map (fun j => keptEntries res (colOf arr j))) := by
    simp only [outputColumnsSections, hvalid, hn, hinfo]
    exact mapME_ok_of_forall _ _ (List.range n) (fun j _ =>
      mapRowE_resolves sh res (colOf arr j)
        (fun v hv => hres v (colOf_mem arr j v hv)))
  refine ⟨_, _, hrowsOk, hcolsOk, ?_, ?_⟩
  · intro s hs e he hev
    rcases List.mem_map.1 hs with ⟨r, _, rfl⟩
    have h2 := keptEntries_mem res r e he
    exact h2.2.1 (by rw [hev]; exact hv0)
  · intro s hs e he hev
    rcases List.mem_map.1 hs with ⟨j, _, rfl⟩
    have h2 := keptEntries_mem res (colOf arr j) e he
    exact h2.2.1 (by rw [hev]; exact hv0)

/-- Witness for falsyLocator_dropped: on sheetEmptyUrl, value 1 (a
non-null cell of the grid) resolves to the empty locator and vanishes
from every row and column slice while both extractions succeed. -/
theorem falsyLocator_dropped_witness :
    ∃ rss css, outputRowsSections sheetEmptyUrl cexGrid7 = .ok rss ∧
      outputColumnsSections sheetEmptyUrl cexGrid7 = .ok css ∧
      (∀ s ∈ rss, ∀ e ∈ s, e.value ≠ 1) ∧
      (∀ s ∈ css, ∀ e ∈ s, e.value ≠ 1) :=
  falsyLocator_dropped sheetEmptyUrl cexGrid7 (fun _ => "") ⟨"Answers", "A1"⟩ 1
    (by
      have he : cexGrid7.flatten.reduceOption = ([1] : List ℚ) := by decide
      rw [he]
      intro v hv
      fin_cases hv
      exact gifc_sheetEmptyUrl_1)
    (by decide) (by decide) (by decide) rfl

/-- Indexing a mapped range at an in-bound position. -/
theorem getD_map_range {α : Type} (f : Nat → α) (n i : Nat) (d : α) (h : i < n) :
    ((List.range n).map f).getD i d = f i := by
  rw [List.getD_eq_getElem?_getD, List.getElem?_map, List.getElem?_range h]
  rfl

/-- Claim C9: during puzzle construction, cell (i, j) keeps its value
exactly when the toggle equals the specified (bold) mark of the cell
and the value is an integer between 1 and the grid size; otherwise the
cell becomes null, and a kept cell carries the original value. -/
theorem puzzleInclusion (sh : Sheet) (pin : PuzzleInput) (info : SheetInfo)
    (n : Nat) (colRun digRun : List Char) (i j : Nat)
    (hinfo : getAnswersSheetInfo sh = .ok info)
    (hn : getGridSize sh = .ok n)
    (hcol : firstRun isUpperAZ info.startCell.data = some colRun)
    (hdig : firstRun Char.isDigit info.startCell.data = some digRun)
    (hi : i < n) (hj : j < n) :
    ∃ puzzle, getSudokuPuzzle sh pin = .ok puzzle ∧
      ((puzzle.getD i []).getD j none =
        match jsInt? ((pin.values.getD i []).getD j .empty) with
        | some q =>
          if (getMayOnlyContain sh
                = (pin.bold (natOfDigits digRun + i)
                    ((colRun.headD 'A').toNat - 64 + j) == some "bold"))
              ∧ 1 ≤ q ∧ q ≤ (n : ℚ)
          then some q else none
        | none => none) := by
  have hpz : getSudokuPuzzle sh pin = .ok (buildPuzzle n (getMayOnlyContain sh)
      pin.values (fun a b => pin.bold (natOfDigits digRun + a)
        ((colRun.headD 'A').toNat - 64 + b) == some "bold")) := by
    simp only [getSudokuPuzzle, hinfo, hn, hcol, hdig]
  refine ⟨_, hpz, ?_⟩
  unfold buildPuzzle
  rw [getD_map_range _ n i [] hi, getD_map_range _ n j none hj]
  simp only []
  cases hjq : jsInt? ((pin.values.getD i []).getD j .empty) with
  | none => simp [hjq]
  | some q =>
    simp only [hjq]
    cases hb : getMayOnlyContain sh <;>
      cases hs : (pin.bold (natOfDigits digRun + i)
        ((colRun.headD 'A').toNat - 64 + j) == some "bold") <;>
      simp [hb, hs]

/-- Concrete answers-sheet data: a 4 by 4 latin square whose top left
cell alone is bold. -/
def pin9 : PuzzleInput where
  values := [[.num 1, .num 2, .num 3, .num 4],
             [.num 2, .num 3, .num 4, .num 1],
             [.num 3, .num 4, .num 1, .num 2],
             [.num 4, .num 1, .num 2, .num 3]]
  bold := fun r c => if r = 1 ∧ c = 1 then some "bold" else some "normal"

/-- Witness for puzzleInclusion at cell (0, 0) of the concrete data;
the toggle is on and the cell is bold, so the value 1 is kept. -/
theorem puzzleInclusion_witness :
    ∃ puzzle, getSudokuPuzzle sheetOk4 pin9 = .ok puzzle ∧
      ((puzzle.getD 0 []).getD 0 none =
        match jsInt? ((pin9.values.getD 0 []).getD 0 .empty) with
        | some q =>
          if (getMayOnlyContain sheetOk4
                = (pin9.bold (natOfDigits ['1'] + 0)
                    ((['A'].headD 'A').toNat - 64 + 0) == some "bold"))
              ∧ 1 ≤ q ∧ q ≤ ((4 : Nat) : ℚ)
          then some q else none
        | none => none) :=
  puzzleInclusion sheetOk4 pin9 ⟨"Answers", "A1"⟩ 4 ['A'] ['1'] 0 0
    (by decide) (by decide) (by decide) (by decide) (by decide) (by decide)
